import Mathlib

/-!
Shallow embedding of `src/applications/tari_base_node/src/parser.rs`: the
interactive command parser/dispatcher of the tari base node.  Pure Rust
helpers become Lean functions; the two shared atomic flags become fields of
an explicit `ParserState`; a handler's synchronous observable behaviour is a
`StepResult`: the new flag state, the lines printed synchronously, and the
list of detached tasks submitted to the executor (each task record carries
exactly the data the Rust closure captures).  The external public-key
decoders (`CommsPublicKey::from_hex`, `EmojiId::str_to_pubkey`) live outside
the source file, so the model is parametric in them: every theorem holds
for an arbitrary pair of decoders `fromHex`, `strToPubkey` over an
arbitrary key type `PK`.
-/

namespace TariParser

/-- The 11 command variants of `BaseNodeCommand`, in declaration order
(parser.rs lines 65-77). -/
inductive BaseNodeCommand where
  | Help
  | GetBalance
  | SendTari
  | GetChainMetadata
  | ListPeers
  | ListConnections
  | ListHeaders
  | Whoami
  | ToggleMining
  | Quit
  | Exit
deriving DecidableEq, Repr

/-- `BaseNodeCommand::iter()` (strum `EnumIter`): the variants in
declaration order. -/
def BaseNodeCommand.iter : List BaseNodeCommand :=
  [.Help, .GetBalance, .SendTari, .GetChainMetadata, .ListPeers,
   .ListConnections, .ListHeaders, .Whoami, .ToggleMining, .Quit, .Exit]

/-- The strum `Display` derive with `serialize_all = "kebab_case"`:
each variant renders to its lowercase hyphen-separated token. -/
def BaseNodeCommand.render : BaseNodeCommand → String
  | .Help => "help"
  | .GetBalance => "get-balance"
  | .SendTari => "send-tari"
  | .GetChainMetadata => "get-chain-metadata"
  | .ListPeers => "list-peers"
  | .ListConnections => "list-connections"
  | .ListHeaders => "list-headers"
  | .Whoami => "whoami"
  | .ToggleMining => "toggle-mining"
  | .Quit => "quit"
  | .Exit => "exit"

/-- The strum `EnumString` derive with `serialize_all = "kebab_case"`:
`from_str` matches a token exactly against each variant's kebab-case
serialization and errors on anything else. -/
def BaseNodeCommand.fromStr (s : String) : Option BaseNodeCommand :=
  if s = "help" then some .Help
  else if s = "get-balance" then some .GetBalance
  else if s = "send-tari" then some .SendTari
  else if s = "get-chain-metadata" then some .GetChainMetadata
  else if s = "list-peers" then some .ListPeers
  else if s = "list-connections" then some .ListConnections
  else if s = "list-headers" then some .ListHeaders
  else if s = "whoami" then some .Whoami
  else if s = "toggle-mining" then some .ToggleMining
  else if s = "quit" then some .Quit
  else if s = "exit" then some .Exit
  else none

/-- `Parser::new` line 131: `commands: BaseNodeCommand::iter().map(|x| x.to_string()).collect()`. -/
def commandsList : List String :=
  BaseNodeCommand.iter.map BaseNodeCommand.render

/-- Rust `str::starts_with(prefix)` at the character level:
`isPrefixOfChars p s` is true when `p` is a prefix of `s`
(case-sensitive, exact characters). -/
def isPrefixOfChars : List Char → List Char → Bool
  | [], _ => true
  | _ :: _, [] => false
  | a :: as, b :: bs => a = b && isPrefixOfChars as bs

/-- `Completer::complete` (parser.rs lines 99-108): keep the commands of
which the line is a prefix, in the order of `self.commands`.  The Rust
method always returns `Ok` and touches no backend handle; the model is
accordingly a total pure function of the static vocabulary. -/
def complete (line : String) : List String :=
  commandsList.filter (fun cmd => isPrefixOfChars line.data cmd.data)

/-- Rust `str::split(sep: char)` at the character level: splitting never
yields zero pieces (the empty string splits to `[[]]`), and consecutive
separators yield empty pieces. -/
def splitChars (sep : Char) : List Char → List (List Char)
  | [] => [[]]
  | c :: cs =>
    if c = sep then [] :: splitChars sep cs
    else
      match splitChars sep cs with
      | [] => [[c]]
      | t :: ts => (c :: t) :: ts

/-- `command_str.split(' ')` (parser.rs line 142): split the raw line on
the single space character. -/
def splitLine (s : String) : List String :=
  (splitChars ' ' s.data).map (fun cs => String.mk cs)

/-- Rust `str::parse` into an unsigned integer of the given bit width
(`u64` or `usize`): an optional leading `+`, then at least one ASCII
digit, nothing else, and the value must fit in the type; anything else is
a parse error. -/
def parseRustNat (width : Nat) (s : String) : Option Nat :=
  let cs := match s.data with
    | '+' :: rest => rest
    | cs => cs
  if cs = [] then none
  else if cs.all (fun c => c.isDigit) then
    let v := cs.foldl (fun acc c => acc * 10 + (c.toNat - 48)) 0
    if v < 2 ^ width then some v else none
  else none

/-- The mutable / session state the parser shares: the two atomic flags and
the immutable identity descriptor (rendered to text, as `Whoami` prints it). -/
structure ParserState where
  shutdownFlag : Bool
  enableMiner : Bool
  nodeIdentity : String
deriving DecidableEq, Repr

/-- A unit of work submitted to the executor by a handler
(`self.executor.spawn(async move { ... })`), carrying exactly the request
data the Rust closure captures.  `PK` is the public-key type produced by
the external destination decoders. -/
inductive SpawnedTask (PK : Type) where
  | getBalanceTask
  | getChainMetaTask
  | listPeersTask
  | listConnectionsTask
  | listHeadersTask (maxHeaders : Nat)
  | sendTariTask (dest : PK) (amount : Nat) (feePerGram : Nat) (message : String)
deriving DecidableEq, Repr

/-- The synchronous observable outcome of handling one line or one command:
the updated flag state, the lines printed synchronously (in order), and the
detached tasks submitted (in order). -/
structure StepResult (PK : Type) where
  state : ParserState
  output : List String
  spawned : List (SpawnedTask PK)
deriving DecidableEq, Repr

/-- `Parser::print_help` (parser.rs lines 195-236): the topic is the next
argument token, defaulting to `""` when absent; an unparsable topic falls
back to `Help`, which prints the full joined vocabulary. -/
def printHelp (args : List String) : List String :=
  match (BaseNodeCommand.fromStr (args.headD "")).getD .Help with
  | .Help =>
      ["Available commands are: ", String.intercalate ", " commandsList]
  | .GetBalance => ["Gets your balance"]
  | .SendTari =>
      ["Sends an amount of Tari to a address call this command via:",
       "send_tari [amount of tari to send] [public key to send to]"]
  | .GetChainMetadata => ["Gets your base node chain meta data"]
  | .ListPeers => ["Lists the peers that this node knows about"]
  | .ListConnections => ["Lists the peer connections currently held by this node"]
  | .ListHeaders => ["List the last headers up to a maximum of 10 of the current chain"]
  | .ToggleMining =>
      ["Enable or disable the miner on this node, calling this command will toggle the state"]
  | .Whoami =>
      ["Display identity information about this node, including: public key, node ID and the public address"]
  | .Exit | .Quit => ["Exits the base node"]

/-- `Parser::process_send_tari` (parser.rs lines 358-399).  `args` is the
iterator of tokens remaining after the command token; the handler collects
`args.take(3)`, demands exactly 3 of them, reads the amount from index 1
and the destination from index 2 (index 0 is never read), tries the hex
decoder and on its failure the emoji decoder, and on success submits a send
with `fee_per_gram = 25 * uT` and the fixed message. -/
def processSendTari {PK : Type} (fromHex strToPubkey : String → Option PK)
    (st : ParserState) (args : List String) : StepResult PK :=
  match args.take 3 with
  | [_, a1, a2] =>
    match parseRustNat 64 a1 with
    | none => ⟨st, ["please enter a valid amount of tari"], []⟩
    | some amount =>
      match fromHex a2 with
      | some pk =>
          ⟨st, [], [.sendTariTask pk amount 25 "coinbase reward from mining"]⟩
      | none =>
        match strToPubkey a2 with
        | some pk =>
            ⟨st, [], [.sendTariTask pk amount 25 "coinbase reward from mining"]⟩
        | none => ⟨st, ["please enter a valid destination pub_key"], []⟩
  | _ =>
      ⟨st, ["Command entered incorrectly, please use the following format: ",
            "send_tari [amount of tari to send] [public key to send to]"], []⟩

/-- `Parser::process_list_headers` line 324:
`args.next().unwrap_or("1").parse().unwrap_or(1)` — the count is the next
argument token, defaulting to `"1"` when absent, parsed as `usize` with
fallback 1 on parse failure. -/
def parseListHeadersCount (args : List String) : Nat :=
  (parseRustNat 64 (args.headD "1")).getD 1

/-- parser.rs line 335 inside the spawned list-headers task:
`(0..max_height + 1).rev().take(max_headers)`.  `max_height` is a `u64`,
so the increment wraps modulo 2^64 (release-build semantics): at
`max_height = 2^64 - 1` the range `0..0` is empty and no heights are
produced. -/
def listHeadersHeights (maxHeight maxHeaders : Nat) : List Nat :=
  ((List.range ((maxHeight + 1) % 2 ^ 64)).reverse).take maxHeaders

/-- The spawned list-headers task (parser.rs lines 326-336) up to the
header request it issues: a failed metadata query is coerced to height 0,
a successful one uses `height_of_longest_chain.unwrap_or(0)` (an
`Option<u64>`, so a contained height is a value below 2^64), and the
requested heights are `listHeadersHeights` of that height. -/
def listHeadersRequestedHeights (maxHeaders : Nat)
    (meta : Except Unit (Option Nat)) : List Nat :=
  listHeadersHeights (match meta with
    | .error _ => 0
    | .ok h => h.getD 0) maxHeaders

/-- `Parser::process_command` (parser.rs lines 154-193): route the parsed
command and the remaining argument tokens to its handler.  Handlers that
only spawn a detached task print nothing synchronously; `ToggleMining`
flips the mining flag; `Exit`/`Quit` print and set the shutdown flag. -/
def processCommand {PK : Type} (fromHex strToPubkey : String → Option PK)
    (st : ParserState) (cmd : BaseNodeCommand) (args : List String) :
    StepResult PK :=
  match cmd with
  | .Help => ⟨st, printHelp args, []⟩
  | .GetBalance => ⟨st, [], [.getBalanceTask]⟩
  | .SendTari => processSendTari fromHex strToPubkey st args
  | .GetChainMetadata => ⟨st, [], [.getChainMetaTask]⟩
  | .ListPeers => ⟨st, [], [.listPeersTask]⟩
  | .ListConnections => ⟨st, [], [.listConnectionsTask]⟩
  | .ListHeaders => ⟨st, [], [.listHeadersTask (parseListHeadersCount args)]⟩
  | .ToggleMining => ⟨⟨st.shutdownFlag, !st.enableMiner, st.nodeIdentity⟩, [], []⟩
  | .Whoami => ⟨st, [st.nodeIdentity], []⟩
  | .Exit | .Quit => ⟨⟨true, st.enableMiner, st.nodeIdentity⟩, ["Shutting down..."], []⟩

/-- The first token `Parser::handle_command` matches on:
`args.next().unwrap_or(&"help")` applied to `command_str.split(' ')`. -/
def firstToken (line : String) : String :=
  (splitLine line).headD "help"

/-- `Parser::handle_command` (parser.rs lines 141-151): split the raw line
on `' '`, parse the first token (defaulting to `"help"` only if the split
were empty, which never happens), on failure print the two advisory lines
and stop, on success hand the remaining tokens to `process_command`. -/
def handleCommand {PK : Type} (fromHex strToPubkey : String → Option PK)
    (st : ParserState) (commandStr : String) : StepResult PK :=
  match BaseNodeCommand.fromStr (firstToken commandStr) with
  | none =>
      ⟨st, [commandStr ++ " is not a valid command, please enter a valid command",
            "Enter help or press tab for available commands"], []⟩
  | some cmd => processCommand fromHex strToPubkey st cmd (splitLine commandStr).tail

/-- A destination decoder that rejects every string: one possible behaviour
of the external hex / emoji decoders. -/
def noDecoder : String → Option Unit := fun _ => none

/-- A destination decoder that accepts every string: one possible behaviour
of the external decoders, standing in for lines whose destination token is
a valid key. -/
def acceptAll : String → Option Unit := fun _ => some ()

/-- A concrete fresh session state used by witnesses and counterexamples. -/
def st0 : ParserState := ⟨false, false, "node-identity"⟩

/-- The descending height sequence H, H-1, ..., 0, as the specification
words it. -/
def descFrom : Nat → List Nat
  | 0 => [0]
  | n + 1 => (n + 1) :: descFrom n

/-- How many argument tokens each handler reads: Help and ListHeaders read
at most one, SendTari reads the first three remaining tokens, every other
handler reads none. -/
def consumedArgs : BaseNodeCommand → Nat
  | .Help => 1
  | .ListHeaders => 1
  | .SendTari => 3
  | _ => 0

/-- The specification's tokenisation of the remainder of a line: splitting
on whitespace with no empty tokens produced (the behaviour of Rust
`split_whitespace`), stated here only to compare the spec's wording with
the code's single-space split. -/
def splitWhitespaceAux : List Char → List Char → List (List Char)
  | [], acc => if acc.isEmpty then [] else [acc.reverse]
  | c :: cs, acc =>
    if c.isWhitespace then
      if acc.isEmpty then splitWhitespaceAux cs []
      else acc.reverse :: splitWhitespaceAux cs []
    else splitWhitespaceAux cs (c :: acc)

/-- Whitespace splitting of a string, per the spec's wording. -/
def splitWhitespaceSpec (s : String) : List String :=
  (splitWhitespaceAux s.data []).map (fun cs => String.mk cs)

/-! ## Helper lemmas -/

/-- `process_send_tari` never touches the flags: its state is the input
state in every branch. -/
theorem processSendTari_state_eq {PK : Type}
    (fromHex strToPubkey : String → Option PK) (st : ParserState)
    (args : List String) :
    (processSendTari fromHex strToPubkey st args).state = st := by
  unfold processSendTari
  repeat' split
  all_goals rfl

/-- No handler clears a set shutdown flag. -/
theorem processCommand_shutdown_monotone {PK : Type}
    (fromHex strToPubkey : String → Option PK) (st : ParserState)
    (cmd : BaseNodeCommand) (args : List String)
    (h : st.shutdownFlag = true) :
    (processCommand fromHex strToPubkey st cmd args).state.shutdownFlag = true := by
  cases cmd <;>
    simp [processCommand, processSendTari_state_eq, h]

/-- Taking one element first does not change the optional head. -/
theorem head?_take_one {α : Type} (l : List α) :
    (l.take 1).head? = l.head? := by
  cases l <;> rfl

/-- The descending sequence from H starts with H. -/
theorem descFrom_take_one (H : Nat) : (descFrom H).take 1 = [H] := by
  cases H <;> rfl

/-- The reversed range 0..H is the descending sequence H, H-1, ..., 0. -/
theorem range_reverse_eq_descFrom (H : Nat) :
    (List.range (H + 1)).reverse = descFrom H := by
  induction H with
  | zero => rfl
  | succ n ih =>
    rw [List.range_succ, List.reverse_append]
    simp [descFrom] at ih ⊢
    exact ih

/-! ## Claim theorems -/

/-- C2: for every one of the 11 command variants, rendering it to its
canonical lowercase kebab-case token and parsing that token back yields
the same variant. -/
theorem parse_render_roundtrip :
    ∀ c : BaseNodeCommand,
      BaseNodeCommand.fromStr (BaseNodeCommand.render c) = some c := by
  intro c
  cases c <;> rfl

/-- C3 (code bug): for the empty input line, `split(' ')` yields the single
empty token, `from_str("")` fails, and the dispatcher prints the two
advisory lines instead of running the Help handler — the
`unwrap_or(&"help")` default branch is unreachable.  The first conjunct
evaluates the dispatcher at the empty line for every decoder pair and
state; the second shows the result differs from the Help handler's
output. -/
theorem empty_line_hits_error_path :
    (∀ {PK : Type} (fromHex strToPubkey : String → Option PK) (st : ParserState),
        handleCommand fromHex strToPubkey st "" =
          ⟨st, [" is not a valid command, please enter a valid command",
                "Enter help or press tab for available commands"], []⟩) ∧
    (handleCommand noDecoder noDecoder st0 "").output ≠
      (processCommand noDecoder noDecoder st0 .Help []).output := by
  constructor
  · intro PK fh sp st
    rfl
  · decide

/-- C1 (code bug): a line of exactly 3 space-separated tokens
(command, amount, destination) is always rejected with the two format-hint
lines and spawns nothing — for every possible destination decoder, hence
even when the destination token is a valid key — because the handler
demands 3 tokens among the arguments remaining after the command token and
reads the amount from index 1 and the destination from index 2.  A 4-token
line whose ignored second token precedes a parsable amount and an accepted
destination is what actually submits, with fee 25 micro-units per gram and
the fixed message. -/
theorem send_tari_three_token_line_rejected :
    (∀ {PK : Type} (fromHex strToPubkey : String → Option PK) (st : ParserState),
        handleCommand fromHex strToPubkey st "send-tari 100 aa" =
          ⟨st, ["Command entered incorrectly, please use the following format: ",
                "send_tari [amount of tari to send] [public key to send to]"], []⟩) ∧
    (handleCommand acceptAll acceptAll st0 "send-tari x 100 aa").spawned =
      [SpawnedTask.sendTariTask () 100 25 "coinbase reward from mining"] := by
  constructor
  · intro PK fh sp st
    rfl
  · decide

/-- C5: any line whose first token parses to no command yields exactly the
two advisory lines, an unchanged state and no spawned task, for every
decoder pair and state. -/
theorem unrecognized_token_no_side_effects :
    ∀ {PK : Type} (fromHex strToPubkey : String → Option PK) (st : ParserState)
      (line : String),
      BaseNodeCommand.fromStr (firstToken line) = none →
      handleCommand fromHex strToPubkey st line =
        ⟨st, [line ++ " is not a valid command, please enter a valid command",
              "Enter help or press tab for available commands"], []⟩ := by
  intro PK fh sp st line h
  unfold handleCommand
  rw [h]

/-- C5 witness: the theorem applied at the concrete line "not-a-command". -/
theorem unrecognized_token_no_side_effects_witness :
    BaseNodeCommand.fromStr (firstToken "not-a-command") = none ∧
    handleCommand noDecoder noDecoder st0 "not-a-command" =
      ⟨st0, ["not-a-command is not a valid command, please enter a valid command",
             "Enter help or press tab for available commands"], []⟩ :=
  ⟨by decide,
   unrecognized_token_no_side_effects noDecoder noDecoder st0 "not-a-command" (by decide)⟩

/-- C6: completion returns exactly the vocabulary tokens of which the line
is a case-sensitive character-level prefix, in declaration order (it is a
sublist of the vocabulary); the empty line yields the full 11-token
vocabulary.  The model of `complete` is a total pure function of the
static vocabulary, so it cannot error and consults no backend. -/
theorem complete_prefix_candidates :
    (∀ line c : String,
        (c ∈ complete line ↔
          c ∈ commandsList ∧ isPrefixOfChars line.data c.data = true) ∧
        List.Sublist (complete line) commandsList) ∧
    complete "" = commandsList ∧ commandsList.length = 11 := by
  refine ⟨fun line c => ⟨?_, ?_⟩, ?_, ?_⟩
  · simp [complete, List.mem_filter]
  · exact List.filter_sublist _
  · decide
  · decide

/-- C8: ToggleMining flips the mining flag, leaves the shutdown flag
untouched, spawns no task and prints nothing; applying it twice restores
the entire state. -/
theorem toggle_mining_flips_and_involutes :
    ∀ {PK : Type} (fromHex strToPubkey : String → Option PK) (st : ParserState)
      (args args' : List String),
      (processCommand fromHex strToPubkey st .ToggleMining args).state.enableMiner
          = !st.enableMiner ∧
      (processCommand fromHex strToPubkey st .ToggleMining args).state.shutdownFlag
          = st.shutdownFlag ∧
      (processCommand fromHex strToPubkey
          (processCommand fromHex strToPubkey st .ToggleMining args).state
          .ToggleMining args').state = st ∧
      (processCommand fromHex strToPubkey st .ToggleMining args).spawned = [] ∧
      (processCommand fromHex strToPubkey st .ToggleMining args).output = [] := by
  intro PK fh sp st args args'
  refine ⟨rfl, rfl, ?_, rfl, rfl⟩
  cases st with
  | mk sf em ident => simp [processCommand]

/-- C9: Quit and Exit print exactly "Shutting down..." and set the shutdown
flag to true; handling any further command from a state whose flag is
already set keeps it set (so issuing Quit or Exit again is a no-op with
respect to the flag, and no handler ever clears it). -/
theorem quit_exit_set_shutdown :
    ∀ {PK : Type} (fromHex strToPubkey : String → Option PK) (st : ParserState)
      (args : List String) (cmd : BaseNodeCommand),
      cmd = .Quit ∨ cmd = .Exit →
      (processCommand fromHex strToPubkey st cmd args).output = ["Shutting down..."] ∧
      (processCommand fromHex strToPubkey st cmd args).state.shutdownFlag = true ∧
      (∀ (st' : ParserState) (cmd' : BaseNodeCommand) (args' : List String),
          st'.shutdownFlag = true →
          (processCommand fromHex strToPubkey st' cmd' args').state.shutdownFlag = true) := by
  intro PK fh sp st args cmd h
  refine ⟨?_, ?_, fun st' cmd' args' h' =>
    processCommand_shutdown_monotone fh sp st' cmd' args' h'⟩
  · rcases h with h | h <;> subst h <;> rfl
  · rcases h with h | h <;> subst h <;> rfl

/-- C9 witness: the theorem applied at Quit from a fresh state, and its
monotonicity conjunct applied at Help from an already-shut-down state. -/
theorem quit_exit_set_shutdown_witness :
    ((BaseNodeCommand.Quit = BaseNodeCommand.Quit ∨
        BaseNodeCommand.Quit = BaseNodeCommand.Exit) ∧
      (processCommand noDecoder noDecoder st0 .Quit []).output = ["Shutting down..."] ∧
      (processCommand noDecoder noDecoder st0 .Quit []).state.shutdownFlag = true) ∧
    (ParserState.shutdownFlag ⟨true, false, "node-identity"⟩ = true ∧
      (processCommand noDecoder noDecoder ⟨true, false, "node-identity"⟩
          .Help []).state.shutdownFlag = true) :=
  ⟨⟨Or.inl rfl,
    (quit_exit_set_shutdown noDecoder noDecoder st0 [] .Quit (Or.inl rfl)).1,
    (quit_exit_set_shutdown noDecoder noDecoder st0 [] .Quit (Or.inl rfl)).2.1⟩,
   rfl,
   (quit_exit_set_shutdown noDecoder noDecoder st0 [] .Quit (Or.inl rfl)).2.2
      ⟨true, false, "node-identity"⟩ .Help [] rfl⟩

/-- C4 counterexample: at the u64-representable chain height 2^64 - 1 the
source's `max_height + 1` wraps to 0 (release semantics), so with the
default count 1 the requested height list is empty — not the first value
[2^64 - 1] of the descending sequence the claim demands. -/
theorem list_headers_wrap_at_u64_max :
    parseListHeadersCount [] = 1 ∧
    listHeadersRequestedHeights 1 (Except.ok (some (2 ^ 64 - 1))) = [] ∧
    (descFrom (2 ^ 64 - 1)).take 1 = [2 ^ 64 - 1] ∧
    listHeadersRequestedHeights 1 (Except.ok (some (2 ^ 64 - 1))) ≠
      (descFrom (2 ^ 64 - 1)).take 1 := by
  have h0 : (2 ^ 64 - 1 + 1) % 2 ^ 64 = 0 := by norm_num
  refine ⟨by decide, ?_, descFrom_take_one _, ?_⟩
  · simp [listHeadersRequestedHeights, listHeadersHeights, h0]
  · rw [descFrom_take_one]
    simp [listHeadersRequestedHeights, listHeadersHeights, h0]

/-- C4 amended: the list-headers count defaults to 1 when the argument
token is absent or unparsable; with metadata height H such that the u64
increment H + 1 does not overflow, the requested heights for count n are
the first n values of the descending sequence H, H-1, ..., 0; in
particular count token "3" with height 10 requests [10, 9, 8], and no
argument with height H ≥ 1 (no overflow) requests exactly [H]; the
dispatched task carries exactly the parsed count. -/
theorem list_headers_height_policy :
    parseListHeadersCount [] = 1 ∧
    (∀ (s : String) (rest : List String), parseRustNat 64 s = none →
        parseListHeadersCount (s :: rest) = 1) ∧
    (∀ H n : Nat, H + 1 < 2 ^ 64 →
        listHeadersRequestedHeights n (Except.ok (some H)) = (descFrom H).take n) ∧
    listHeadersRequestedHeights (parseListHeadersCount ["3"])
        (Except.ok (some 10)) = [10, 9, 8] ∧
    (∀ H : Nat, 1 ≤ H → H + 1 < 2 ^ 64 →
        listHeadersRequestedHeights (parseListHeadersCount [])
            (Except.ok (some H)) = [H]) ∧
    (∀ {PK : Type} (fromHex strToPubkey : String → Option PK) (st : ParserState)
        (args : List String),
        (processCommand fromHex strToPubkey st .ListHeaders args).spawned =
          [SpawnedTask.listHeadersTask (parseListHeadersCount args)]) := by
  refine ⟨by decide, ?_, ?_, by decide, ?_, ?_⟩
  · intro s rest h
    simp [parseListHeadersCount, h]
  · intro H n h
    show (List.range ((H + 1) % 2 ^ 64)).reverse.take n = (descFrom H).take n
    rw [Nat.mod_eq_of_lt h, range_reverse_eq_descFrom]
  · intro H h hlt
    cases H with
    | zero => rfl
    | succ n =>
      have hc : parseListHeadersCount [] = 1 := by decide
      rw [hc]
      show (List.range ((n + 1 + 1) % 2 ^ 64)).reverse.take 1 = [n + 1]
      rw [Nat.mod_eq_of_lt hlt, range_reverse_eq_descFrom, descFrom_take_one]
  · intro PK fh sp st args
    rfl

/-- C4 amended-claim witness: the policy theorem applied at concrete
inputs — the unparsable token "abc" falls back to count 1, and no argument
with height 5 requests exactly [5]. -/
theorem list_headers_height_policy_witness :
    (parseRustNat 64 "abc" = none ∧ parseListHeadersCount ["abc"] = 1) ∧
    (1 ≤ 5 ∧ 5 + 1 < 2 ^ 64 ∧
      listHeadersRequestedHeights (parseListHeadersCount [])
          (Except.ok (some 5)) = [5]) :=
  ⟨⟨by decide, list_headers_height_policy.2.1 "abc" [] (by decide)⟩,
   ⟨by decide, by decide,
    list_headers_height_policy.2.2.2.2.1 5 (by decide) (by decide)⟩⟩

/-- C10: surplus argument tokens beyond the consumed prefix never change a
handler's behaviour: processing a command on the full argument list equals
processing it on the first `consumedArgs` tokens, so extra tokens are
silently discarded and never an error. -/
theorem surplus_args_ignored :
    ∀ {PK : Type} (fromHex strToPubkey : String → Option PK) (st : ParserState)
      (cmd : BaseNodeCommand) (args : List String),
      processCommand fromHex strToPubkey st cmd args =
        processCommand fromHex strToPubkey st cmd (args.take (consumedArgs cmd)) := by
  intro PK fh sp st cmd args
  cases cmd <;>
    simp [processCommand, consumedArgs, printHelp, parseListHeadersCount,
      processSendTari, head?_take_one, List.take_take]

/-- C7 counterexample: for the line "help  get-balance" (two spaces) the
argument sequence handed to the handler is ["", "get-balance"], which is
not the whitespace-split remainder ["get-balance"], and the observable
output differs from the single-space line "help get-balance". -/
theorem multi_space_changes_args :
    (splitLine "help  get-balance").tail = ["", "get-balance"] ∧
    splitWhitespaceSpec "  get-balance" = ["get-balance"] ∧
    (splitLine "help  get-balance").tail ≠ splitWhitespaceSpec "  get-balance" ∧
    (handleCommand noDecoder noDecoder st0 "help  get-balance").output ≠
      (handleCommand noDecoder noDecoder st0 "help get-balance").output := by
  exact ⟨by decide, by decide, by decide, by decide⟩

/-- C7 amended: the argument sequence handed to the selected handler is the
tail of the line split on the single space character, so runs of multiple
spaces yield empty tokens (and non-space whitespace is not a separator)
rather than the whitespace-split remainder, and can change behaviour. -/
theorem args_are_single_space_split :
    ∀ {PK : Type} (fromHex strToPubkey : String → Option PK) (st : ParserState)
      (line : String) (cmd : BaseNodeCommand),
      BaseNodeCommand.fromStr (firstToken line) = some cmd →
      handleCommand fromHex strToPubkey st line =
        processCommand fromHex strToPubkey st cmd (splitLine line).tail := by
  intro PK fh sp st line cmd h
  unfold handleCommand
  rw [h]

/-- C7 amended-claim witness: the amended theorem applied at the line
"help get-balance". -/
theorem args_are_single_space_split_witness :
    BaseNodeCommand.fromStr (firstToken "help get-balance") = some BaseNodeCommand.Help ∧
    handleCommand noDecoder noDecoder st0 "help get-balance" =
      processCommand noDecoder noDecoder st0 BaseNodeCommand.Help
        (splitLine "help get-balance").tail :=
  ⟨by decide,
   args_are_single_space_split noDecoder noDecoder st0 "help get-balance"
     BaseNodeCommand.Help (by decide)⟩

end TariParser
